import Mathlib

/-!
# pico-csync-generator: timing constant and polarity/pin patcher

A shallow embedding of `src/main.c`.  Machine integers are `Nat`/`Int`
with explicit reductions: `uint16_t`, `uint32_t` and `uint64_t` values are
naturals below `2^16`, `2^32`, `2^64`, and every C conversion to one of
these types is written out with `to_uint16`, `to_uint32`, `to_uint64`.
-/

namespace CSync

/-! ## Machine integers -/

/-- Conversion of a C integer value to `uint16_t` (reduction modulo `2^16`). -/
def to_uint16 (v : Int) : Nat := (v % 65536).toNat

/-- Conversion of a C integer value to `uint32_t`/`uint` (reduction modulo `2^32`). -/
def to_uint32 (v : Int) : Nat := (v % 4294967296).toNat

/-- Conversion of a C integer value to `uint64_t` (reduction modulo `2^64`). -/
def to_uint64 (v : Int) : Nat := (v % 18446744073709551616).toNat

/-! ## Timing constant (`main`, lines 138-142) -/

/-- The four locals computed by `main` at lines 139-142. -/
structure Timing where
  hsw : Nat
  lhs : Nat
  tc : Nat
  push_val : Nat
deriving DecidableEq

/-- Lines 138-142 of `main`, with the compile-time constants `PIXEL_CLK_HZ`,
`H_TOTAL`, `H_SYNC_START`, `H_SYNC_END` and the run-time value `sys_hz`
(the result of `clock_get_hz(clk_sys)`) as parameters.

* `hsw = (uint16_t)(H_SYNC_END - H_SYNC_START)`: both operands are promoted
  to `int`, the difference is converted to `uint16_t`.
* `lhs = (uint32_t)(H_TOTAL - 2u * hsw)`: unsigned 32-bit arithmetic.
* `tc = (uint32_t)((uint64_t)lhs * (uint64_t)sys_hz / (uint64_t)PIXEL_CLK_HZ)`;
  a zero divisor is undefined behaviour in C and gives `none` here.
* `push_val = (tc >= 2) ? (tc - 2) : 0` in unsigned 32-bit arithmetic. -/
def main_timing (PIXEL_CLK_HZ H_TOTAL H_SYNC_START H_SYNC_END sys_hz : Nat) :
    Option Timing :=
  let hsw := to_uint16 ((H_SYNC_END : Int) - (H_SYNC_START : Int))
  let lhs := to_uint32 ((to_uint32 (H_TOTAL : Int) : Int) - (to_uint32 (2 * (hsw : Int)) : Int))
  if PIXEL_CLK_HZ = 0 then none
  else
    let tc := to_uint32 ((to_uint64 ((lhs : Int) * (sys_hz : Int)) / PIXEL_CLK_HZ : Nat) : Int)
    let push_val := if 2 ≤ tc then to_uint32 ((tc : Int) - 2) else 0
    some ⟨hsw, lhs, tc, push_val⟩

/-- The timing constant as spec section 4.4 words it, over unbounded integers:
`tc = floor((total - 2*(end - start)) * sys / pixel)`. -/
def spec_tc (pixel_clock_hz total_line_length hsync_start hsync_end system_clock_hz : Int) :
    Int :=
  Int.fdiv ((total_line_length - 2 * (hsync_end - hsync_start)) * system_clock_hz)
    pixel_clock_hz

/-- The pushed value as spec section 4.4 words it, over unbounded integers:
`tc - 2` if `tc >= 2`, else `0`. -/
def spec_push (pixel_clock_hz total_line_length hsync_start hsync_end system_clock_hz : Int) :
    Int :=
  let tc := spec_tc pixel_clock_hz total_line_length hsync_start hsync_end system_clock_hz
  if 2 ≤ tc then tc - 2 else 0

/-! ## Instruction template and polarity/pin patcher (lines 35-97) -/

/-- Conversion of a C integer value to `int` (two's-complement reduction to
`[-2^31, 2^31)`); signed results that leave this range are modelled as wrapping. -/
def to_int32 (v : Int) : Int := (v + 2147483648) % 4294967296 - 2147483648

/-- The handle struct of lines 35-40: `uint wrap_target; uint wrap; int offset; uint sm`. -/
structure pio_prog_handle_t where
  wrap_target : Nat
  wrap : Nat
  offset : Int
  sm : Nat
deriving DecidableEq

/-- Line 44: `*instr = (uint16_t)((*instr & ~0x001F) | (gpio_pin & 0x1F))`.
`*instr` is promoted to `int`, `~0x001F` is the 32-bit pattern `0xFFFFFFE0`,
`gpio_pin` is a `uint`; the result is converted back to `uint16_t`. -/
def patch_wait_gpio_pin (instr : Nat) (gpio_pin : Nat) : Nat :=
  to_uint16 (((instr &&& 0xFFFFFFE0) ||| (to_uint32 (gpio_pin : Int) &&& 0x1F) : Nat) : Int)

/-- Lines 47-60: the nine words that `build_rp1_csync_prog` stores into
`instr[0..8]` (every entry of the array is assigned). -/
def build_rp1_csync_prog : List Nat :=
  [ 0x90A0,  -- 0: pull   block      side 1
    0x7040,  -- 1: out    y,32       side 1
    0xB322,  -- 2: mov    x,y        side 1 [3]
    0x3083,  -- 3: wait   1 gpio,HS  side 1
    0xA422,  -- 4: mov    x,y        side 0 [4]
    0x2003,  -- 5: wait   0 gpio,HS  side 0
    0x00C7,  -- 6: jmp    pin,7      side 0
    0x0047,  -- 7: jmp    x--,7      side 0
    0x1002 ] -- 8: jmp    2          side 1

/-- In-place update `instr[i] = f(instr[i])` of one array entry. -/
def modify_at (instr : List Nat) (i : Nat) (f : Nat → Nat) : List Nat :=
  instr.set i (f (instr.getD i 0))

/-- The compound assignment `w ^= m` on a `uint16_t` lvalue. -/
def xor_uint16 (w m : Nat) : Nat := to_uint16 ((w ^^^ m : Nat) : Int)

/-- Lines 66-84 of `load_rp1_csync`: the patch steps applied to the array
`instr`, with the macros `PIN_HSYNC`, `NHSYNC`, `NVSYNC`, `PCSYNC` as parameters.
In order: pin patch of words 3 and 5, VSYNC jump-target selection (word 6 is
overwritten with `0x00C2`), HSYNC sense flip (bit 7 of words 3 and 5), side-set
inversion (bit 12 of all nine words). -/
def patch_steps (PIN_HSYNC : Nat) (NHSYNC NVSYNC PCSYNC : Bool) (instr : List Nat) :
    List Nat :=
  let instr := modify_at instr 3 (fun w => patch_wait_gpio_pin w PIN_HSYNC)
  let instr := modify_at instr 5 (fun w => patch_wait_gpio_pin w PIN_HSYNC)
  let instr := if NVSYNC then instr.set 6 0x00C2 else instr
  let instr :=
    if NHSYNC then
      modify_at (modify_at instr 3 (fun w => xor_uint16 w 0x0080)) 5
        (fun w => xor_uint16 w 0x0080)
    else instr
  let instr :=
    if PCSYNC then
      (List.range 9).foldl (fun a i => modify_at a i (fun w => xor_uint16 w 0x1000)) instr
    else instr
  instr

/-- What a call of `load_rp1_csync` leaves behind: the returned `bool`, the
handle `*h` after the call, and the array `instr` handed to the loader. -/
structure LoadResult where
  ok : Bool
  h : pio_prog_handle_t
  instr : List Nat
deriving DecidableEq

/-- Lines 62-97 of `load_rp1_csync`.  The two platform calls are outside the
repository, so their return values are parameters: `claim_ret` is what
`pio_claim_unused_sm` returns and `add_ret` what `pio_add_program` returns;
`h` is the handle before the call.  The state-machine configuration of lines
99-116 writes hardware registers only and does not change `*h`. -/
def load_rp1_csync (PIN_HSYNC : Nat) (NHSYNC NVSYNC PCSYNC : Bool)
    (claim_ret add_ret : Int) (h : pio_prog_handle_t) : LoadResult :=
  let instr := patch_steps PIN_HSYNC NHSYNC NVSYNC PCSYNC build_rp1_csync_prog
  let h := { h with sm := to_uint32 claim_ret }
  if to_int32 (h.sm : Int) < 0 then ⟨false, h, instr⟩
  else
    let h := { h with offset := to_int32 add_ret }
    if h.offset < 0 then ⟨false, h, instr⟩
    else
      let h := { h with wrap_target := to_uint32 (to_int32 (h.offset + 2)) }
      let h := { h with
        wrap := to_uint32 ((to_uint32 h.offset : Int) + (if NVSYNC then 7 else 6)) }
      ⟨true, h, instr⟩

/-- The patched program for a configuration: the template after the patch steps,
as `load_rp1_csync` builds it at lines 63-84. -/
def patched (PIN_HSYNC : Nat) (NHSYNC NVSYNC PCSYNC : Bool) : List Nat :=
  patch_steps PIN_HSYNC NHSYNC NVSYNC PCSYNC build_rp1_csync_prog

/-! ## Instruction fields

The sequencer's 16-bit instruction format with one mandatory side-set bit (the
configuration of line 104): bits 15:13 opcode, bit 12 side-set, bits 11:8
delay, bits 7:0 operands. -/

/-- Bits 15:13, the opcode (`0` jmp, `1` wait, `3` out, `4` pull, `5` mov). -/
def opcode (w : Nat) : Nat := (w >>> 13) &&& 7

/-- Bit 12, the side-set value driven onto CSYNC. -/
def side_set (w : Nat) : Nat := (w >>> 12) &&& 1

/-- Bits 11:8, the delay count. -/
def delay (w : Nat) : Nat := (w >>> 8) &&& 0xF

/-- Bits 7:5 of a jmp: the condition (`0` always, `2` x--, `6` pin). -/
def jmp_cond (w : Nat) : Nat := (w >>> 5) &&& 7

/-- Bits 4:0 of a jmp: the target address. -/
def jmp_addr (w : Nat) : Nat := w &&& 0x1F

/-- Bit 7 of a wait: the level waited for. -/
def wait_pol (w : Nat) : Nat := (w >>> 7) &&& 1

/-- Bits 6:5 of a wait: the source (`0` gpio). -/
def wait_src (w : Nat) : Nat := (w >>> 5) &&& 3

/-- Bits 4:0 of a wait: the pin index. -/
def wait_index (w : Nat) : Nat := w &&& 0x1F

/-- A word read as a jmp: `some (condition, target)` when the opcode is jmp. -/
def decode_jmp (w : Nat) : Option (Nat × Nat) :=
  if opcode w = 0 then some (jmp_cond w, jmp_addr w) else none

/-- A word read as a wait: `some (level, source, index)` when the opcode is wait. -/
def decode_wait (w : Nat) : Option (Nat × Nat × Nat) :=
  if opcode w = 1 then some (wait_pol w, wait_src w, wait_index w) else none

/-! ## Platform resources and the load on them (lines 86-92)

`pio_claim_unused_sm` and `pio_add_program` belong to the platform SDK, not to
the repository; spec sections 4.3 and 6 describe them as a claim-one primitive
over a fixed pool of execution units and an instruction-memory allocator. -/

/-- Modelled from the spec: the state of one sequencer block, as far as the two
platform primitives touch it: which execution units are claimed, and the shared
instruction memory (a slot is `none` while free). -/
structure pio_state where
  claimed : List Bool
  imem : List (Option Nat)
deriving DecidableEq

/-- Modelled from the spec: the index of a currently-unused execution unit
(the lowest one), if the pool is not exhausted. -/
def first_unclaimed : List Bool → Option Nat
  | [] => none
  | false :: _ => some 0
  | true :: rest => (first_unclaimed rest).map (fun i => i + 1)

/-- Modelled from the spec: `pio_claim_unused_sm`, "acquires one
currently-unused execution unit from the target unit pool; fails if the pool is
exhausted".  Returns the unit index and marks it claimed, or returns `-1` and
leaves the pool as it is. -/
def pio_claim_unused_sm (pio : pio_state) : Int × pio_state :=
  match first_unclaimed pio.claimed with
  | some i => ((i : Int), { pio with claimed := pio.claimed.set i true })
  | none => (-1, pio)

/-- Modelled from the spec: whether the `len` slots from `off` on all exist and
are free. -/
def region_free (imem : List (Option Nat)) (off len : Nat) : Bool :=
  (List.range len).all (fun i => (imem.getD (off + i) (some 0)).isNone)

/-- Modelled from the spec: a free offset at which a program of `len` words
fits (the lowest one), if there is one. -/
def find_offset (imem : List (Option Nat)) (len : Nat) : Option Nat :=
  (List.range imem.length).find? (fun off => region_free imem off len)

/-- Modelled from the spec: the instruction memory after the words of `prog`
are stored from `off` on. -/
def install (imem : List (Option Nat)) (off : Nat) (prog : List Nat) : List (Option Nat) :=
  (List.range prog.length).foldl (fun m i => m.set (off + i) (some (prog.getD i 0))) imem

/-- Modelled from the spec: `pio_add_program`, "installs the instruction stream
into shared instruction memory at a free offset; fails if the program does not
fit in remaining capacity".  Returns the offset and stores the words, or returns
`-1` and leaves the memory as it is. -/
def pio_add_program (pio : pio_state) (prog : List Nat) : Int × pio_state :=
  match find_offset pio.imem prog.length with
  | some off => ((off : Int), { pio with imem := install pio.imem off prog })
  | none => (-1, pio)

/-- Lines 62-97 of `load_rp1_csync` on a platform state: the same statements as
`load_rp1_csync`, with the two platform calls made on `pio` in the order of the
source (claim at line 88; add at line 91, reached only when the claim
succeeded).  Returns the result and the platform state after the call; lines
99-116 claim no unit and store no instruction. -/
def load_rp1_csync_on (pio : pio_state) (PIN_HSYNC : Nat) (NHSYNC NVSYNC PCSYNC : Bool)
    (h : pio_prog_handle_t) : LoadResult × pio_state :=
  let instr := patch_steps PIN_HSYNC NHSYNC NVSYNC PCSYNC build_rp1_csync_prog
  let c := pio_claim_unused_sm pio
  let h := { h with sm := to_uint32 c.1 }
  if to_int32 (h.sm : Int) < 0 then (⟨false, h, instr⟩, c.2)
  else
    let a := pio_add_program c.2 instr
    let h := { h with offset := to_int32 a.1 }
    if h.offset < 0 then (⟨false, h, instr⟩, a.2)
    else
      let h := { h with wrap_target := to_uint32 (to_int32 (h.offset + 2)) }
      let h := { h with
        wrap := to_uint32 ((to_uint32 h.offset : Int) + (if NVSYNC then 7 else 6)) }
      (⟨true, h, instr⟩, a.2)

/-! ## Decoded instructions

The instruction set of the sequencer (RP2040/RP2350 PIO), decoded under the
format above.  Operand fields of the operations the program uses are
enumerations; the operand fields of `in`, `irq` and `set` stay numeric. -/

/-- Bits 7:5 of a jmp. -/
inductive jmp_condition where
  | always | x_zero | x_dec | y_zero | y_dec | x_ne_y | pin | osr_not_empty
deriving DecidableEq

/-- Bits 6:5 of a wait. -/
inductive wait_source where
  | gpio | pin | irq | reserved
deriving DecidableEq

/-- Bits 7:5 of an out. -/
inductive out_dest where
  | pins | x | y | null | pindirs | pc | isr | exec
deriving DecidableEq

/-- Bits 7:5 of a mov. -/
inductive mov_dest where
  | pins | x | y | reserved | exec | pc | isr | osr
deriving DecidableEq

/-- Bits 4:3 of a mov. -/
inductive mov_op where
  | no_op | invert | bit_reverse | reserved
deriving DecidableEq

/-- Bits 2:0 of a mov. -/
inductive mov_src where
  | pins | x | y | null | reserved | status | isr | osr
deriving DecidableEq

/-- The operation of an instruction with its operands. -/
inductive operation where
  | jmp (cond : jmp_condition) (addr : Nat)
  | wait (level : Nat) (source : wait_source) (index : Nat)
  | in_ (source : Nat) (bit_count : Nat)
  | out (dest : out_dest) (bit_count : Nat)
  | push (if_full : Bool) (block : Bool)
  | pull (if_empty : Bool) (block : Bool)
  | mov (dest : mov_dest) (op : mov_op) (src : mov_src)
  | irq (bits : Nat)
  | set (dest : Nat) (data : Nat)
deriving DecidableEq

/-- A decoded instruction: operation, side-set value, delay. -/
structure pio_instr where
  op : operation
  side : Nat
  delay : Nat
deriving DecidableEq

/-- Decoding of the jmp condition field. -/
def decode_jmp_condition (c : Nat) : jmp_condition :=
  match c with
  | 0 => .always | 1 => .x_zero | 2 => .x_dec | 3 => .y_zero
  | 4 => .y_dec | 5 => .x_ne_y | 6 => .pin | _ => .osr_not_empty

/-- Decoding of the wait source field. -/
def decode_wait_source (c : Nat) : wait_source :=
  match c with
  | 0 => .gpio | 1 => .pin | 2 => .irq | _ => .reserved

/-- Decoding of the out destination field. -/
def decode_out_dest (c : Nat) : out_dest :=
  match c with
  | 0 => .pins | 1 => .x | 2 => .y | 3 => .null
  | 4 => .pindirs | 5 => .pc | 6 => .isr | _ => .exec

/-- Decoding of the mov destination field. -/
def decode_mov_dest (c : Nat) : mov_dest :=
  match c with
  | 0 => .pins | 1 => .x | 2 => .y | 3 => .reserved
  | 4 => .exec | 5 => .pc | 6 => .isr | _ => .osr

/-- Decoding of the mov operation field. -/
def decode_mov_op (c : Nat) : mov_op :=
  match c with
  | 0 => .no_op | 1 => .invert | 2 => .bit_reverse | _ => .reserved

/-- Decoding of the mov source field. -/
def decode_mov_src (c : Nat) : mov_src :=
  match c with
  | 0 => .pins | 1 => .x | 2 => .y | 3 => .null
  | 4 => .reserved | 5 => .status | 6 => .isr | _ => .osr

/-- A bit count field of `in`/`out`: the value 0 encodes 32. -/
def decode_bit_count (c : Nat) : Nat := if c = 0 then 32 else c

/-- Decoding of bits 15:13 and 7:0 to an operation. -/
def decode_operation (w : Nat) : operation :=
  match opcode w with
  | 0 => .jmp (decode_jmp_condition (jmp_cond w)) (jmp_addr w)
  | 1 => .wait (wait_pol w) (decode_wait_source (wait_src w)) (wait_index w)
  | 2 => .in_ ((w >>> 5) &&& 7) (decode_bit_count (w &&& 0x1F))
  | 3 => .out (decode_out_dest ((w >>> 5) &&& 7)) (decode_bit_count (w &&& 0x1F))
  | 4 =>
    if (w >>> 7) &&& 1 = 1
    then .pull ((w >>> 6) &&& 1 = 1) ((w >>> 5) &&& 1 = 1)
    else .push ((w >>> 6) &&& 1 = 1) ((w >>> 5) &&& 1 = 1)
  | 5 => .mov (decode_mov_dest ((w >>> 5) &&& 7)) (decode_mov_op ((w >>> 3) &&& 3))
      (decode_mov_src (w &&& 7))
  | 6 => .irq (w &&& 0xFF)
  | _ => .set ((w >>> 5) &&& 7) (w &&& 0x1F)

/-- Decoding of a 16-bit word with one mandatory side-set bit. -/
def decode (w : Nat) : pio_instr :=
  ⟨decode_operation w, side_set w, delay w⟩

/-! ## Sequencer control flow

The rule for the address of the next instruction once the current one has
completed (stall and delay cycles stay on the current instruction and are not
steps).  Addresses are program indices, i.e. the program is at origin 0. -/

/-- What the jump conditions read when a jmp executes: the level of the jump pin
(VSYNC, line 110), the scratch registers and whether the output shift register
is empty. -/
structure sm_inputs where
  pin : Bool
  x : Nat
  y : Nat
  osr_empty : Bool

/-- Whether a jmp with the given condition is taken. -/
def cond_holds (c : jmp_condition) (s : sm_inputs) : Bool :=
  match c with
  | .always => true
  | .x_zero => s.x == 0
  | .x_dec => s.x != 0
  | .y_zero => s.y == 0
  | .y_dec => s.y != 0
  | .x_ne_y => s.x != s.y
  | .pin => s.pin
  | .osr_not_empty => !s.osr_empty

/-- The next-pc rule: a taken jmp goes to its target; otherwise `pc = wrap`
wraps to `wrap_target`; otherwise `pc + 1`. -/
def next_pc (prog : List Nat) (wrap_target wrap : Nat) (s : sm_inputs) (pc : Nat) : Nat :=
  match (decode (prog.getD pc 0)).op with
  | .jmp c addr =>
    if cond_holds c s then addr else if pc = wrap then wrap_target else pc + 1
  | _ => if pc = wrap then wrap_target else pc + 1

/-- The address reached from `pc` after one step per element of the input
sequence. -/
def run (prog : List Nat) (wrap_target wrap : Nat) : List sm_inputs → Nat → Nat
  | [], pc => pc
  | s :: rest, pc => run prog wrap_target wrap rest (next_pc prog wrap_target wrap s pc)

/-- The next-pc rule on the outcome of a load at origin 0: the program is the
array `instr`, the wrap addresses are those stored in the handle. -/
def loaded_next_pc (r : LoadResult) (s : sm_inputs) (pc : Nat) : Nat :=
  next_pc r.instr r.h.wrap_target r.h.wrap s pc

/-- The address reached on the outcome of a load at origin 0. -/
def loaded_run (r : LoadResult) (ss : List sm_inputs) (pc : Nat) : Nat :=
  run r.instr r.h.wrap_target r.h.wrap ss pc

/-! ## Theorems: timing constant -/

/-- Reduction to `uint32_t` leaves a natural below `2^32` unchanged. -/
theorem to_uint32_of_lt (n : Nat) (h : n < 4294967296) : to_uint32 (n : Int) = n := by
  unfold to_uint32; omega

/-- Reduction to `uint32_t` always lands below `2^32`. -/
theorem to_uint32_lt (v : Int) : to_uint32 v < 4294967296 := by
  unfold to_uint32; omega

/-- C1 (as stated, refuted): at the reference timing (pixel clock 8,056,000 Hz,
line length 512, sync 410..450, system clock 150,000,000 Hz) the code does not
produce `hsw = 40, lhs = 432, tc = 8041, push_val = 8039`. -/
theorem C1_reference_timing_not_8041 :
    main_timing 8056000 512 410 450 150000000 ≠ some ⟨40, 432, 8041, 8039⟩ := by
  decide

/-- C1 (amended): at the reference timing the code computes `hsw = 40`,
`lhs = 432`, `tc = 8043` and pushes `8041`. -/
theorem C1_reference_timing :
    main_timing 8056000 512 410 450 150000000 = some ⟨40, 432, 8043, 8041⟩ := by
  decide

/-- The conditional of line 142 on a 32-bit `tc`: zero below 2, never above
`tc`, and exactly `tc - 2` from 2 on. -/
theorem push_val_props (tc : Nat) (htc : tc < 4294967296) :
    (tc < 2 → (if 2 ≤ tc then to_uint32 ((tc : Int) - 2) else 0) = 0)
    ∧ (if 2 ≤ tc then to_uint32 ((tc : Int) - 2) else 0) ≤ tc
    ∧ (2 ≤ tc → (if 2 ≤ tc then to_uint32 ((tc : Int) - 2) else 0) + 2 = tc) := by
  unfold to_uint32
  split <;> omega

/-- C2 (as stated, refuted): with all parameters in their C types and both
clocks positive, the pushed value differs from the unbounded-integer formula
(a) when the sync end offset precedes the start offset (`hsw` wraps in 16 bits),
(b) when twice the sync width exceeds the line length (`lhs` wraps in 32 bits),
(c) when the quotient does not fit in 32 bits (the cast to `uint32_t` truncates). -/
theorem C2_push_differs_from_integer_formula :
    (main_timing 8056000 512 450 410 150000000).map (fun t => (t.push_val : Int))
        ≠ some (spec_push 8056000 512 450 410 150000000)
    ∧ (main_timing 8056000 64 410 450 150000000).map (fun t => (t.push_val : Int))
        ≠ some (spec_push 8056000 64 410 450 150000000)
    ∧ (main_timing 1 65535 0 0 4294967295).map (fun t => (t.push_val : Int))
        ≠ some (spec_push 1 65535 0 0 4294967295) := by
  decide

/-- C2 (amended): for a 16-bit line length, a 32-bit system clock and a positive
pixel clock, when the sync start offset does not exceed the end offset, twice
the sync width does not exceed the line length and the quotient
`(total - 2*(end - start)) * sys_hz / pixel_hz` is below `2^32`, the computation
returns and no step wraps or truncates: `hsw`, `lhs`, `tc` equal their
unbounded-integer values and the pushed value is `tc - 2` if `tc >= 2`, else `0`. -/
theorem C2_push_eq_integer_formula
    (PIXEL_CLK_HZ H_TOTAL H_SYNC_START H_SYNC_END sys_hz : Nat)
    (hT : H_TOTAL < 65536) (hC : sys_hz < 4294967296) (hpix : 0 < PIXEL_CLK_HZ)
    (hord : H_SYNC_START ≤ H_SYNC_END)
    (hfit : 2 * (H_SYNC_END - H_SYNC_START) ≤ H_TOTAL)
    (hq : (H_TOTAL - 2 * (H_SYNC_END - H_SYNC_START)) * sys_hz / PIXEL_CLK_HZ
      < 4294967296) :
    ∃ t, main_timing PIXEL_CLK_HZ H_TOTAL H_SYNC_START H_SYNC_END sys_hz = some t
      ∧ (t.hsw : Int) = (H_SYNC_END : Int) - H_SYNC_START
      ∧ (t.lhs : Int) = (H_TOTAL : Int) - 2 * ((H_SYNC_END : Int) - H_SYNC_START)
      ∧ (t.tc : Int) = spec_tc PIXEL_CLK_HZ H_TOTAL H_SYNC_START H_SYNC_END sys_hz
      ∧ (t.push_val : Int)
          = spec_push PIXEL_CLK_HZ H_TOTAL H_SYNC_START H_SYNC_END sys_hz := by
  have hne : PIXEL_CLK_HZ ≠ 0 := Nat.pos_iff_ne_zero.mp hpix
  have hhsw : to_uint16 ((H_SYNC_END : Int) - (H_SYNC_START : Int))
      = H_SYNC_END - H_SYNC_START := by
    unfold to_uint16; omega
  have hlhs : to_uint32 ((to_uint32 (H_TOTAL : Int) : Int)
        - (to_uint32 (2 * ((H_SYNC_END - H_SYNC_START : Nat) : Int)) : Int))
      = H_TOTAL - 2 * (H_SYNC_END - H_SYNC_START) := by
    unfold to_uint32; omega
  have hlt : H_TOTAL - 2 * (H_SYNC_END - H_SYNC_START) < 65536 := by omega
  have hprod : (H_TOTAL - 2 * (H_SYNC_END - H_SYNC_START)) * sys_hz
      < 18446744073709551616 := by
    calc (H_TOTAL - 2 * (H_SYNC_END - H_SYNC_START)) * sys_hz
        ≤ 65536 * 4294967296 := Nat.mul_le_mul (le_of_lt hlt) (le_of_lt hC)
      _ < 18446744073709551616 := by norm_num
  have h64 : to_uint64
        (((H_TOTAL - 2 * (H_SYNC_END - H_SYNC_START) : Nat) : Int) * (sys_hz : Int))
      = (H_TOTAL - 2 * (H_SYNC_END - H_SYNC_START)) * sys_hz := by
    unfold to_uint64
    rw [← Int.natCast_mul]
    omega
  have hspec : spec_tc PIXEL_CLK_HZ H_TOTAL H_SYNC_START H_SYNC_END sys_hz
      = (((H_TOTAL - 2 * (H_SYNC_END - H_SYNC_START)) * sys_hz / PIXEL_CLK_HZ : Nat)
          : Int) := by
    unfold spec_tc
    have e : ((H_TOTAL : Int) - 2 * ((H_SYNC_END : Int) - H_SYNC_START))
        = ((H_TOTAL - 2 * (H_SYNC_END - H_SYNC_START) : Nat) : Int) := by omega
    rw [e, ← Int.natCast_mul, Int.fdiv_eq_ediv _ (Int.natCast_nonneg _)]
    norm_cast
  simp only [main_timing, if_neg hne, hhsw, hlhs, h64, to_uint32_of_lt _ hq]
  refine ⟨_, rfl, ?_, ?_, ?_, ?_⟩
  · simp only; omega
  · simp only; omega
  · simp only [hspec]
  · simp only [spec_push, hspec]
    generalize (H_TOTAL - 2 * (H_SYNC_END - H_SYNC_START)) * sys_hz / PIXEL_CLK_HZ = q at hq
    unfold to_uint32
    split <;> split <;> omega

/-- Witness for C2 (amended) at the compiled-in timing and a 150 MHz system clock. -/
theorem C2_push_eq_integer_formula_witness :
    ∃ t, main_timing 8056000 512 410 450 150000000 = some t
      ∧ (t.hsw : Int) = ((450 : Nat) : Int) - (410 : Nat)
      ∧ (t.lhs : Int) = ((512 : Nat) : Int) - 2 * (((450 : Nat) : Int) - (410 : Nat))
      ∧ (t.tc : Int) = spec_tc (8056000 : Nat) (512 : Nat) (410 : Nat) (450 : Nat)
          (150000000 : Nat)
      ∧ (t.push_val : Int) = spec_push (8056000 : Nat) (512 : Nat) (410 : Nat) (450 : Nat)
          (150000000 : Nat) :=
  C2_push_eq_integer_formula 8056000 512 410 450 150000000
    (by decide) (by decide) (by decide) (by decide) (by decide) (by decide)

/-- C3: for every input with a non-zero pixel clock the computation returns; if
the computed `tc` is below 2 the pushed value is exactly 0, the pushed value
never exceeds `tc` (it is not a wrapped-around `tc - 2`), and from `tc = 2` on
it is exactly `tc - 2`. -/
theorem C3_push_degenerate_and_bounded
    (PIXEL_CLK_HZ H_TOTAL H_SYNC_START H_SYNC_END sys_hz : Nat)
    (hpix : 0 < PIXEL_CLK_HZ) :
    ∃ t, main_timing PIXEL_CLK_HZ H_TOTAL H_SYNC_START H_SYNC_END sys_hz = some t
      ∧ (t.tc < 2 → t.push_val = 0) ∧ t.push_val ≤ t.tc
      ∧ (2 ≤ t.tc → t.push_val + 2 = t.tc) := by
  have hne : PIXEL_CLK_HZ ≠ 0 := Nat.pos_iff_ne_zero.mp hpix
  simp only [main_timing, if_neg hne]
  refine ⟨_, rfl, ?_⟩
  dsimp only
  exact push_val_props _ (to_uint32_lt _)

/-- Witness for C3 at a degenerate input: a 1 Hz system clock gives `tc = 0`. -/
theorem C3_push_degenerate_and_bounded_witness :
    0 < 8056000 ∧ main_timing 8056000 512 410 450 1 = some ⟨40, 432, 0, 0⟩
    ∧ ∃ t, main_timing 8056000 512 410 450 1 = some t
      ∧ (t.tc < 2 → t.push_val = 0) ∧ t.push_val ≤ t.tc
      ∧ (2 ≤ t.tc → t.push_val + 2 = t.tc) :=
  ⟨by decide, by decide, C3_push_degenerate_and_bounded 8056000 512 410 450 1 (by decide)⟩

/-! ## Theorems: polarity/pin patcher -/

/-- Masking with `0x1F` keeps the value modulo 32. -/
theorem and_31_eq_mod (n : Nat) : n &&& 0x1F = n % 32 :=
  Nat.and_pow_two_sub_one_eq_mod n 5

/-- The pin patch sees only the low five bits of the pin index. -/
theorem patch_wait_gpio_pin_mod (w p : Nat) :
    patch_wait_gpio_pin w p = patch_wait_gpio_pin w (p % 32) := by
  have h : to_uint32 (p : Int) % 32 = to_uint32 ((p % 32 : Nat) : Int) % 32 := by
    unfold to_uint32; omega
  unfold patch_wait_gpio_pin
  rw [and_31_eq_mod, and_31_eq_mod, h]

/-- The patch steps see only the low five bits of the pin index. -/
theorem patch_steps_mod (p : Nat) (nh nv pc : Bool) (instr : List Nat) :
    patch_steps p nh nv pc instr = patch_steps (p % 32) nh nv pc instr := by
  unfold patch_steps
  simp only [patch_wait_gpio_pin_mod _ p]

/-- The patched program for pin `p` is the one for pin `p % 32`, so a property
checked for the 32 pins below 32 holds for every pin index. -/
theorem patched_mod (p : Nat) (nh nv pc : Bool) :
    patched p nh nv pc = patched (p % 32) nh nv pc :=
  patch_steps_mod p nh nv pc build_rp1_csync_prog

/-- The result of a load when both platform calls succeed (non-negative `int`
return values): the call returns `true`, `*h` holds the state machine, the
origin and the two wrap addresses, and `instr` is the patched program. -/
theorem load_rp1_csync_ok (p : Nat) (nh nv pc : Bool) (claim_ret add_ret : Int)
    (h : pio_prog_handle_t)
    (hc0 : 0 ≤ claim_ret) (hc1 : claim_ret < 2147483648)
    (ha0 : 0 ≤ add_ret) (ha1 : add_ret < 2147483648) :
    load_rp1_csync p nh nv pc claim_ret add_ret h
      = ⟨true, ⟨(add_ret + 2).toNat, (add_ret + (if nv then 7 else 6)).toNat, add_ret,
          claim_ret.toNat⟩, patched p nh nv pc⟩ := by
  have h1 : ¬ to_int32 ((to_uint32 claim_ret : Nat) : Int) < 0 := by
    unfold to_int32 to_uint32; omega
  have h2 : to_int32 add_ret = add_ret := by unfold to_int32; omega
  have h3 : ¬ add_ret < 0 := by omega
  have h4 : to_uint32 claim_ret = claim_ret.toNat := by unfold to_uint32; omega
  have h5 : to_uint32 (to_int32 (add_ret + 2)) = (add_ret + 2).toNat := by
    unfold to_int32 to_uint32; omega
  have h6 : to_uint32 ((to_uint32 add_ret : Int) + (if nv then 7 else 6))
      = (add_ret + (if nv then 7 else 6)).toNat := by
    unfold to_uint32; cases nv <;> simp <;> omega
  rw [h4] at h1
  simp only [load_rp1_csync, h1, h2, h3, if_false, h4, h5, h6, patched]

/-- The three jumps of the patched program, for the 32 pins and 8 flag
combinations: word 6 is `jmp pin` to 2 (VSYNC active-low) or 7 (active-high),
word 7 is `jmp x--,7`, word 8 is the unconditional `jmp 2`. -/
theorem patched_jumps : ∀ r < 32, ∀ nh nv pc : Bool,
    (patched r nh nv pc).length = 9
    ∧ decode_jmp ((patched r nh nv pc).getD 6 0) = some (6, if nv then 2 else 7)
    ∧ decode_jmp ((patched r nh nv pc).getD 7 0) = some (2, 7)
    ∧ decode_jmp ((patched r nh nv pc).getD 8 0) = some (0, 2) := by
  decide

/-- C4: for every HSYNC pin, all 8 polarity combinations and every program
origin `add_ret` (a non-negative `int`), a successful `load_rp1_csync` sets
`wrap_target = offset + 2` and `wrap = offset + 7` when VSYNC is active-low,
`offset + 6` otherwise; both values are the same for every other pin,
HSYNC-polarity flag and invert-output flag. -/
theorem C4_wrap_addresses (p : Nat) (nh nv pc : Bool) (claim_ret add_ret : Int)
    (h : pio_prog_handle_t)
    (hc0 : 0 ≤ claim_ret) (hc1 : claim_ret < 2147483648)
    (ha0 : 0 ≤ add_ret) (ha1 : add_ret < 2147483648) :
    (load_rp1_csync p nh nv pc claim_ret add_ret h).ok = true
    ∧ (load_rp1_csync p nh nv pc claim_ret add_ret h).h.offset = add_ret
    ∧ ((load_rp1_csync p nh nv pc claim_ret add_ret h).h.wrap_target : Int) = add_ret + 2
    ∧ ((load_rp1_csync p nh nv pc claim_ret add_ret h).h.wrap : Int)
        = add_ret + (if nv then 7 else 6)
    ∧ ∀ (q : Nat) (nh' pc' : Bool),
        (load_rp1_csync q nh' nv pc' claim_ret add_ret h).h.wrap_target
          = (load_rp1_csync p nh nv pc claim_ret add_ret h).h.wrap_target
        ∧ (load_rp1_csync q nh' nv pc' claim_ret add_ret h).h.wrap
          = (load_rp1_csync p nh nv pc claim_ret add_ret h).h.wrap := by
  refine ⟨?_, ?_, ?_, ?_, ?_⟩
  · rw [load_rp1_csync_ok p nh nv pc claim_ret add_ret h hc0 hc1 ha0 ha1]
  · rw [load_rp1_csync_ok p nh nv pc claim_ret add_ret h hc0 hc1 ha0 ha1]
  · rw [load_rp1_csync_ok p nh nv pc claim_ret add_ret h hc0 hc1 ha0 ha1]
    simp only; omega
  · rw [load_rp1_csync_ok p nh nv pc claim_ret add_ret h hc0 hc1 ha0 ha1]
    cases nv <;> simp <;> omega
  · intro q nh' pc'
    rw [load_rp1_csync_ok p nh nv pc claim_ret add_ret h hc0 hc1 ha0 ha1,
      load_rp1_csync_ok q nh' nv pc' claim_ret add_ret h hc0 hc1 ha0 ha1]
    exact ⟨rfl, rfl⟩

/-- Witness for C4 at the compiled-in configuration (pin 2, HSYNC and VSYNC
active-low, no inversion), state machine 0 and origin 23. -/
theorem C4_wrap_addresses_witness :
    ((0 : Int) ≤ 0 ∧ (0 : Int) < 2147483648 ∧ (0 : Int) ≤ 23 ∧ (23 : Int) < 2147483648)
    ∧ (load_rp1_csync 2 true true false 0 23 ⟨0, 0, 0, 0⟩).ok = true
    ∧ ((load_rp1_csync 2 true true false 0 23 ⟨0, 0, 0, 0⟩).h.wrap_target : Int) = 23 + 2
    ∧ ((load_rp1_csync 2 true true false 0 23 ⟨0, 0, 0, 0⟩).h.wrap : Int)
        = 23 + (if true then 7 else 6) :=
  ⟨by decide,
   (C4_wrap_addresses 2 true true false 0 23 ⟨0, 0, 0, 0⟩
      (by decide) (by decide) (by decide) (by decide)).1,
   (C4_wrap_addresses 2 true true false 0 23 ⟨0, 0, 0, 0⟩
      (by decide) (by decide) (by decide) (by decide)).2.2.1,
   (C4_wrap_addresses 2 true true false 0 23 ⟨0, 0, 0, 0⟩
      (by decide) (by decide) (by decide) (by decide)).2.2.2.1⟩

/-- C5 (as stated, refuted): with VSYNC active-high (pin 2, origin 0) the load
succeeds with `wrap = 6`, and the word at index 6 is not the unconditional
`jmp 2`; that instruction is the word at index 8. -/
theorem C5_wrap_is_not_unconditional_jump :
    (load_rp1_csync 2 true false false 0 0 ⟨0, 0, 0, 0⟩).ok = true
    ∧ (load_rp1_csync 2 true false false 0 0 ⟨0, 0, 0, 0⟩).h.wrap = 6
    ∧ decode_jmp ((load_rp1_csync 2 true false false 0 0 ⟨0, 0, 0, 0⟩).instr.getD 6 0)
        ≠ some (0, 2)
    ∧ decode_jmp ((load_rp1_csync 2 true false false 0 0 ⟨0, 0, 0, 0⟩).instr.getD 8 0)
        = some (0, 2) := by
  decide

/-- C5 (amended): after a successful load, when VSYNC is active-low the wrap
address is origin + 7 and word 7 is the countdown-extend `jmp x--,7`; when VSYNC
is active-high the wrap address is origin + 6 and word 6 is the conditional
`jmp pin,7`, while the unconditional `jmp 2` is word 8. -/
theorem C5_wrap_instruction (p : Nat) (nh nv pc : Bool) (claim_ret add_ret : Int)
    (h : pio_prog_handle_t)
    (hc0 : 0 ≤ claim_ret) (hc1 : claim_ret < 2147483648)
    (ha0 : 0 ≤ add_ret) (ha1 : add_ret < 2147483648) :
    (nv = true →
      ((load_rp1_csync p nh nv pc claim_ret add_ret h).h.wrap : Int) = add_ret + 7
      ∧ decode_jmp ((load_rp1_csync p nh nv pc claim_ret add_ret h).instr.getD 7 0)
          = some (2, 7))
    ∧ (nv = false →
      ((load_rp1_csync p nh nv pc claim_ret add_ret h).h.wrap : Int) = add_ret + 6
      ∧ decode_jmp ((load_rp1_csync p nh nv pc claim_ret add_ret h).instr.getD 6 0)
          = some (6, 7)
      ∧ decode_jmp ((load_rp1_csync p nh nv pc claim_ret add_ret h).instr.getD 8 0)
          = some (0, 2)) := by
  rw [load_rp1_csync_ok p nh nv pc claim_ret add_ret h hc0 hc1 ha0 ha1, patched_mod]
  have hf := patched_jumps (p % 32) (Nat.mod_lt _ (by decide)) nh nv pc
  constructor
  · intro hv; subst hv
    refine ⟨?_, hf.2.2.1⟩
    simp only [if_true]; omega
  · intro hv; subst hv
    refine ⟨?_, ?_, hf.2.2.2⟩
    · simp; omega
    · simpa using hf.2.1

/-- Witness for C5 (amended) at pin 2, HSYNC active-low, VSYNC active-high,
origin 23. -/
theorem C5_wrap_instruction_witness :
    ((0 : Int) ≤ 0 ∧ (0 : Int) < 2147483648 ∧ (0 : Int) ≤ 23 ∧ (23 : Int) < 2147483648)
    ∧ ((load_rp1_csync 2 true false false 0 23 ⟨0, 0, 0, 0⟩).h.wrap : Int) = 23 + 6
    ∧ decode_jmp ((load_rp1_csync 2 true false false 0 23 ⟨0, 0, 0, 0⟩).instr.getD 6 0)
        = some (6, 7)
    ∧ decode_jmp ((load_rp1_csync 2 true false false 0 23 ⟨0, 0, 0, 0⟩).instr.getD 8 0)
        = some (0, 2) :=
  ⟨by decide,
   (C5_wrap_instruction 2 true false false 0 23 ⟨0, 0, 0, 0⟩
      (by decide) (by decide) (by decide) (by decide)).2 rfl⟩

/-- Re-applying the patch steps to the patched program, for the 32 pins and 8
flag combinations: the program is unchanged exactly when neither XOR step runs. -/
theorem repatch_fixed_iff : ∀ r < 32, ∀ nh nv pc : Bool,
    (patch_steps r nh nv pc (patched r nh nv pc) = patched r nh nv pc)
      ↔ (nh = false ∧ pc = false) := by
  decide

/-- C6 (as stated, refuted): at the compiled-in configuration (pin 2, HSYNC and
VSYNC active-low, no inversion) applying the patch steps to the already-patched
program changes it, and so it does with only invert-output set. -/
theorem C6_repatch_changes_stream :
    patch_steps 2 true true false (patched 2 true true false) ≠ patched 2 true true false
    ∧ patch_steps 2 false false true (patched 2 false false true)
        ≠ patched 2 false false true := by
  decide

/-- C6 (amended): for every pin and every flag combination, applying the patch
steps to the already-patched program with the same configuration returns it
unchanged exactly when the HSYNC-active-low and invert-output flags are both
clear. -/
theorem C6_repatch_idempotent_iff (p : Nat) (nh nv pc : Bool) :
    (patch_steps p nh nv pc (patched p nh nv pc) = patched p nh nv pc)
      ↔ (nh = false ∧ pc = false) := by
  rw [patch_steps_mod, patched_mod]
  exact repatch_fixed_iff (p % 32) (Nat.mod_lt _ (by decide)) nh nv pc

/-- The patched program for a pin below 32 against the one for pin 0: same
length, same words outside 3 and 5, same bits above the low five everywhere,
and the low five bits of words 3 and 5 are the pin. -/
theorem patched_pin_frame : ∀ r < 32, ∀ nh nv pc : Bool,
    (patched r nh nv pc).length = 9
    ∧ (∀ i < 9, i ≠ 3 → i ≠ 5 →
        (patched r nh nv pc).getD i 0 = (patched 0 nh nv pc).getD i 0)
    ∧ (∀ i < 9, (patched r nh nv pc).getD i 0 / 32 = (patched 0 nh nv pc).getD i 0 / 32)
    ∧ (patched r nh nv pc).getD 3 0 % 32 = r
    ∧ (patched r nh nv pc).getD 5 0 % 32 = r := by
  decide

/-- C7: for every polarity configuration and any two HSYNC pin indices `p` and
`q`, the patched programs have nine words, agree in every word other than 3 and
5, agree in every word above the low five bits, and the low five bits of words
3 and 5 of the program for `p` are `p % 32`, hence `p` itself for `p < 32`. -/
theorem C7_pin_patch_frame (p q : Nat) (nh nv pc : Bool) :
    (patched p nh nv pc).length = 9 ∧ (patched q nh nv pc).length = 9
    ∧ (∀ i < 9, i ≠ 3 → i ≠ 5 →
        (patched p nh nv pc).getD i 0 = (patched q nh nv pc).getD i 0)
    ∧ (∀ i < 9, (patched p nh nv pc).getD i 0 / 32 = (patched q nh nv pc).getD i 0 / 32)
    ∧ (patched p nh nv pc).getD 3 0 % 32 = p % 32
    ∧ (patched p nh nv pc).getD 5 0 % 32 = p % 32
    ∧ (p < 32 → (patched p nh nv pc).getD 3 0 % 32 = p
        ∧ (patched p nh nv pc).getD 5 0 % 32 = p) := by
  have hp := patched_pin_frame (p % 32) (Nat.mod_lt _ (by decide)) nh nv pc
  have hq := patched_pin_frame (q % 32) (Nat.mod_lt _ (by decide)) nh nv pc
  rw [← patched_mod] at hp hq
  refine ⟨hp.1, hq.1, ?_, ?_, hp.2.2.2.1, hp.2.2.2.2, ?_⟩
  · intro i hi h3 h5
    rw [hp.2.1 i hi h3 h5, hq.2.1 i hi h3 h5]
  · intro i hi
    rw [hp.2.2.1 i hi, hq.2.2.1 i hi]
  · intro hlt
    rw [hp.2.2.2.1, hp.2.2.2.2, Nat.mod_eq_of_lt hlt]
    exact ⟨rfl, rfl⟩

/-- Witness for C7 at pins 2 and 7 with HSYNC and VSYNC active-low. -/
theorem C7_pin_patch_frame_witness :
    (2 : Nat) < 32 ∧ (patched 2 true true false).getD 3 0 % 32 = 2
      ∧ (patched 2 true true false).getD 5 0 % 32 = 2 :=
  ⟨by decide, (C7_pin_patch_frame 2 7 true true false).2.2.2.2.2.2 (by decide)⟩

/-- Invert-output on against off, for the 32 pins and 4 sync polarities: every
word is XORed with `0x1000`. -/
theorem patched_invert : ∀ r < 32, ∀ nh nv : Bool,
    patched r nh nv true = (patched r nh nv false).map (fun w => w ^^^ 0x1000)
    ∧ (patched r nh nv false).length = 9 := by
  decide

/-- C8: for every HSYNC pin and every HSYNC/VSYNC polarity, the program patched
with invert-output set is the nine-word program patched with invert-output clear
with every word XORed with `0x1000`: in each of the nine words (word 6 with its
rewritten jump target included) bit 12 is flipped and every other bit is equal. -/
theorem C8_invert_flips_bit12 (p : Nat) (nh nv : Bool) :
    (patched p nh nv false).length = 9
    ∧ patched p nh nv true = (patched p nh nv false).map (fun w => w ^^^ 0x1000)
    ∧ ∀ i < 9, ∀ k : Nat,
        ((patched p nh nv true).getD i 0).testBit k
          = (((patched p nh nv false).getD i 0).testBit k != decide (k = 12)) := by
  have h := patched_invert (p % 32) (Nat.mod_lt _ (by decide)) nh nv
  rw [← patched_mod, ← patched_mod] at h
  refine ⟨h.2, h.1, ?_⟩
  intro i hi k
  rw [h.1]
  have hlen : i < (patched p nh nv false).length := by rw [h.2]; exact hi
  rw [List.getD_eq_getElem _ _ (by simpa using hlen), List.getD_eq_getElem _ _ hlen,
    List.getElem_map, Nat.testBit_xor]
  congr 1
  rw [show (0x1000 : Nat) = 2 ^ 12 by norm_num, Nat.testBit_two_pow]
  by_cases hk : k = 12 <;> simp [hk, eq_comm]

/-- HSYNC active-low against active-high, for the 32 pins: only words 3 and 5
differ, each by an XOR with `0x0080`. -/
theorem patched_hsync_frame : ∀ r < 32, ∀ nv pc : Bool,
    (∀ i < 9, i ≠ 3 → i ≠ 5 →
        (patched r true nv pc).getD i 0 = (patched r false nv pc).getD i 0)
    ∧ (patched r true nv pc).getD 3 0 = (patched r false nv pc).getD 3 0 ^^^ 0x0080
    ∧ (patched r true nv pc).getD 5 0 = (patched r false nv pc).getD 5 0 ^^^ 0x0080 := by
  decide

/-- The two HSYNC waits of the patched program, for the 32 pins: both are
`wait <level> gpio <pin>` with opposite levels. -/
theorem patched_hsync_sense : ∀ r < 32, ∀ nv pc : Bool,
    decode_wait ((patched r false nv pc).getD 3 0) = some (1, 0, r)
    ∧ decode_wait ((patched r false nv pc).getD 5 0) = some (0, 0, r)
    ∧ decode_wait ((patched r true nv pc).getD 3 0) = some (0, 0, r)
    ∧ decode_wait ((patched r true nv pc).getD 5 0) = some (1, 0, r) := by
  decide

/-- C9: for every pin and every VSYNC/invert-output setting, the program for
HSYNC active-low equals the one for HSYNC active-high except that bit 7 of words
3 and 5 is flipped (XOR with `0x0080`); word 3 is `wait 1 gpio` and word 5
`wait 0 gpio` when HSYNC is active-high, word 3 is `wait 0 gpio` and word 5
`wait 1 gpio` when it is active-low, so the two sense bits are always opposite. -/
theorem C9_hsync_sense_flip (p : Nat) (nv pc : Bool) :
    (∀ i < 9, i ≠ 3 → i ≠ 5 →
        (patched p true nv pc).getD i 0 = (patched p false nv pc).getD i 0)
    ∧ (patched p true nv pc).getD 3 0 = (patched p false nv pc).getD 3 0 ^^^ 0x0080
    ∧ (patched p true nv pc).getD 5 0 = (patched p false nv pc).getD 5 0 ^^^ 0x0080
    ∧ decode_wait ((patched p false nv pc).getD 3 0) = some (1, 0, p % 32)
    ∧ decode_wait ((patched p false nv pc).getD 5 0) = some (0, 0, p % 32)
    ∧ decode_wait ((patched p true nv pc).getD 3 0) = some (0, 0, p % 32)
    ∧ decode_wait ((patched p true nv pc).getD 5 0) = some (1, 0, p % 32) := by
  have h := patched_hsync_frame (p % 32) (Nat.mod_lt _ (by decide)) nv pc
  have g := patched_hsync_sense (p % 32) (Nat.mod_lt _ (by decide)) nv pc
  rw [← patched_mod, ← patched_mod] at h g
  exact ⟨h.1, h.2.1, h.2.2, g⟩

/-- VSYNC active-low against active-high, for the 32 pins: only word 6 differs,
and only in its low five bits, which are 2 and 7. -/
theorem patched_vsync_frame : ∀ r < 32, ∀ nh pc : Bool,
    (∀ i < 9, i ≠ 6 →
        (patched r nh true pc).getD i 0 = (patched r nh false pc).getD i 0)
    ∧ (patched r nh true pc).getD 6 0 / 32 = (patched r nh false pc).getD 6 0 / 32
    ∧ jmp_addr ((patched r nh true pc).getD 6 0) = 2
    ∧ jmp_addr ((patched r nh false pc).getD 6 0) = 7 := by
  decide

/-- The fields of word 6 other than the target, for the 32 pins: a jmp on
condition `pin` with the same delay and side-set under both VSYNC polarities. -/
theorem patched_vsync_fields : ∀ r < 32, ∀ nh pc : Bool,
    opcode ((patched r nh true pc).getD 6 0) = 0
    ∧ opcode ((patched r nh false pc).getD 6 0) = 0
    ∧ jmp_cond ((patched r nh true pc).getD 6 0) = 6
    ∧ jmp_cond ((patched r nh false pc).getD 6 0) = 6
    ∧ delay ((patched r nh true pc).getD 6 0) = delay ((patched r nh false pc).getD 6 0)
    ∧ side_set ((patched r nh true pc).getD 6 0)
        = side_set ((patched r nh false pc).getD 6 0) := by
  decide

/-- C10: for every pin and every HSYNC/invert-output setting, the program for
VSYNC active-low equals the one for VSYNC active-high in every word other than
6; word 6 agrees above its low five bits, its jump target is 2 instead of 7, and
under both polarities it is a jmp on condition `pin` with equal delay and
side-set bits. -/
theorem C10_vsync_jump_target (p : Nat) (nh pc : Bool) :
    (∀ i < 9, i ≠ 6 →
        (patched p nh true pc).getD i 0 = (patched p nh false pc).getD i 0)
    ∧ (patched p nh true pc).getD 6 0 / 32 = (patched p nh false pc).getD 6 0 / 32
    ∧ jmp_addr ((patched p nh true pc).getD 6 0) = 2
    ∧ jmp_addr ((patched p nh false pc).getD 6 0) = 7
    ∧ opcode ((patched p nh true pc).getD 6 0) = 0
    ∧ opcode ((patched p nh false pc).getD 6 0) = 0
    ∧ jmp_cond ((patched p nh true pc).getD 6 0) = 6
    ∧ jmp_cond ((patched p nh false pc).getD 6 0) = 6
    ∧ delay ((patched p nh true pc).getD 6 0) = delay ((patched p nh false pc).getD 6 0)
    ∧ side_set ((patched p nh true pc).getD 6 0)
        = side_set ((patched p nh false pc).getD 6 0) := by
  have h := patched_vsync_frame (p % 32) (Nat.mod_lt _ (by decide)) nh pc
  have g := patched_vsync_fields (p % 32) (Nat.mod_lt _ (by decide)) nh pc
  rw [← patched_mod, ← patched_mod] at h g
  exact ⟨h.1, h.2.1, h.2.2.1, h.2.2.2, g⟩

/-! ## Theorems: compiled-in timing -/

/-- When the sync offsets are ordered, the sync pulse fits twice into the line
and the quotient is below `2^32`, the four locals of `main` are the plain
natural-number values. -/
theorem main_timing_of_no_wrap
    (PIXEL_CLK_HZ H_TOTAL H_SYNC_START H_SYNC_END sys_hz : Nat)
    (hT : H_TOTAL < 65536) (hC : sys_hz < 4294967296) (hpix : 0 < PIXEL_CLK_HZ)
    (hord : H_SYNC_START ≤ H_SYNC_END)
    (hfit : 2 * (H_SYNC_END - H_SYNC_START) ≤ H_TOTAL)
    (hq : (H_TOTAL - 2 * (H_SYNC_END - H_SYNC_START)) * sys_hz / PIXEL_CLK_HZ
      < 4294967296) :
    main_timing PIXEL_CLK_HZ H_TOTAL H_SYNC_START H_SYNC_END sys_hz
      = some ⟨H_SYNC_END - H_SYNC_START, H_TOTAL - 2 * (H_SYNC_END - H_SYNC_START),
          (H_TOTAL - 2 * (H_SYNC_END - H_SYNC_START)) * sys_hz / PIXEL_CLK_HZ,
          (H_TOTAL - 2 * (H_SYNC_END - H_SYNC_START)) * sys_hz / PIXEL_CLK_HZ - 2⟩ := by
  have hne : PIXEL_CLK_HZ ≠ 0 := Nat.pos_iff_ne_zero.mp hpix
  have hhsw : to_uint16 ((H_SYNC_END : Int) - (H_SYNC_START : Int))
      = H_SYNC_END - H_SYNC_START := by
    unfold to_uint16; omega
  have hlhs : to_uint32 ((to_uint32 (H_TOTAL : Int) : Int)
        - (to_uint32 (2 * ((H_SYNC_END - H_SYNC_START : Nat) : Int)) : Int))
      = H_TOTAL - 2 * (H_SYNC_END - H_SYNC_START) := by
    unfold to_uint32; omega
  have hlt : H_TOTAL - 2 * (H_SYNC_END - H_SYNC_START) < 65536 := by omega
  have hprod : (H_TOTAL - 2 * (H_SYNC_END - H_SYNC_START)) * sys_hz
      < 18446744073709551616 := by
    calc (H_TOTAL - 2 * (H_SYNC_END - H_SYNC_START)) * sys_hz
        ≤ 65536 * 4294967296 := Nat.mul_le_mul (le_of_lt hlt) (le_of_lt hC)
      _ < 18446744073709551616 := by norm_num
  have h64 : to_uint64
        (((H_TOTAL - 2 * (H_SYNC_END - H_SYNC_START) : Nat) : Int) * (sys_hz : Int))
      = (H_TOTAL - 2 * (H_SYNC_END - H_SYNC_START)) * sys_hz := by
    unfold to_uint64
    rw [← Int.natCast_mul]
    omega
  have hpush : ∀ q : Nat, q < 4294967296 →
      (if 2 ≤ q then to_uint32 ((q : Int) - 2) else 0) = q - 2 := by
    intro q hq
    unfold to_uint32
    split <;> omega
  simp only [main_timing, if_neg hne, hhsw, hlhs, h64, to_uint32_of_lt _ hq, hpush _ hq]

/-- C17: for the compiled-in timing constants (`H_TOTAL` 512, `H_SYNC_START`
410, `H_SYNC_END` 450, `PIXEL_CLK_HZ` 8056000) and every 32-bit system clock,
the quotient `432 * sys_hz / 8056000` is below `2^32`, the computation returns
`hsw = 40`, `lhs = 432`, `tc` equal to that quotient (the cast loses nothing),
and the pushed value is `max (tc - 2) 0` over the integers. -/
theorem C17_compiled_timing_exact (sys_hz : Nat) (hC : sys_hz < 4294967296) :
    432 * sys_hz / 8056000 < 4294967296
    ∧ ∃ t, main_timing 8056000 512 410 450 sys_hz = some t
        ∧ t.hsw = 40 ∧ t.lhs = 432
        ∧ t.tc = 432 * sys_hz / 8056000
        ∧ (t.push_val : Int) = max (((432 * sys_hz / 8056000 : Nat) : Int) - 2) 0 := by
  have hq : 432 * sys_hz / 8056000 < 4294967296 := by omega
  have hm := main_timing_of_no_wrap 8056000 512 410 450 sys_hz (by decide) hC (by decide)
    (by decide) (by decide) hq
  refine ⟨hq, _, hm, rfl, rfl, rfl, ?_⟩
  simp only
  omega

/-- Witness for C17 at the largest 32-bit system clock. -/
theorem C17_compiled_timing_exact_witness :
    (4294967295 : Nat) < 4294967296 ∧ 432 * 4294967295 / 8056000 < 4294967296
    ∧ ∃ t, main_timing 8056000 512 410 450 4294967295 = some t
        ∧ t.hsw = 40 ∧ t.lhs = 432
        ∧ t.tc = 432 * 4294967295 / 8056000
        ∧ (t.push_val : Int) = max (((432 * 4294967295 / 8056000 : Nat) : Int) - 2) 0 :=
  ⟨by decide, C17_compiled_timing_exact 4294967295 (by decide)⟩

/-! ## Theorems: pin validation and load failure -/

/-- The array handed to the loader is the patched program, on every path. -/
theorem load_instr (p : Nat) (nh nv pc : Bool) (claim_ret add_ret : Int)
    (h : pio_prog_handle_t) :
    (load_rp1_csync p nh nv pc claim_ret add_ret h).instr = patched p nh nv pc := by
  simp only [load_rp1_csync, patched]
  split_ifs <;> rfl

/-- The return value and the handle of a load do not depend on the pin. -/
theorem load_pin_indep (p q : Nat) (nh nv pc : Bool) (claim_ret add_ret : Int)
    (h : pio_prog_handle_t) :
    (load_rp1_csync p nh nv pc claim_ret add_ret h).ok
        = (load_rp1_csync q nh nv pc claim_ret add_ret h).ok
    ∧ (load_rp1_csync p nh nv pc claim_ret add_ret h).h
        = (load_rp1_csync q nh nv pc claim_ret add_ret h).h := by
  simp only [load_rp1_csync]
  split_ifs <;> exact ⟨rfl, rfl⟩

/-- C11 (as stated, refuted): with HSYNC pin index 66, beyond every GPIO of the
platform, the load succeeds and the program produced is the one for pin 2. -/
theorem C11_out_of_range_pin_accepted :
    (load_rp1_csync 66 true true false 0 0 ⟨0, 0, 0, 0⟩).ok = true
    ∧ (load_rp1_csync 66 true true false 0 0 ⟨0, 0, 0, 0⟩).instr
        = patched 2 true true false := by
  decide

/-- C11 (amended): `load_rp1_csync` does not validate the HSYNC pin index: for
any two indices the return value and the handle are the same, and for every
index a nine-word program is produced, the one for the index reduced modulo 32. -/
theorem C11_pin_not_validated (p q : Nat) (nh nv pc : Bool) (claim_ret add_ret : Int)
    (h : pio_prog_handle_t) :
    (load_rp1_csync p nh nv pc claim_ret add_ret h).ok
        = (load_rp1_csync q nh nv pc claim_ret add_ret h).ok
    ∧ (load_rp1_csync p nh nv pc claim_ret add_ret h).h
        = (load_rp1_csync q nh nv pc claim_ret add_ret h).h
    ∧ (load_rp1_csync p nh nv pc claim_ret add_ret h).instr = patched (p % 32) nh nv pc
    ∧ (load_rp1_csync p nh nv pc claim_ret add_ret h).instr.length = 9 := by
  have hlen : (patched (p % 32) nh nv pc).length = 9 :=
    (patched_jumps (p % 32) (Nat.mod_lt _ (by decide)) nh nv pc).1
  have hi := load_instr p nh nv pc claim_ret add_ret h
  rw [patched_mod] at hi
  have hind := load_pin_indep p q nh nv pc claim_ret add_ret h
  exact ⟨hind.1, hind.2, hi, by rw [hi]; exact hlen⟩

/-- The result of the load on a platform state is the load with the return
values of the two platform calls. -/
theorem load_on_result (pio : pio_state) (p : Nat) (nh nv pc : Bool)
    (h : pio_prog_handle_t) :
    (load_rp1_csync_on pio p nh nv pc h).1
      = load_rp1_csync p nh nv pc (pio_claim_unused_sm pio).1
          (pio_add_program (pio_claim_unused_sm pio).2 (patched p nh nv pc)).1 h := by
  simp only [load_rp1_csync_on, load_rp1_csync, patched]
  split_ifs <;> rfl

/-- The platform state after the load: the state after the claim when the claim
failed, the state after the add otherwise. -/
theorem load_on_state (pio : pio_state) (p : Nat) (nh nv pc : Bool)
    (h : pio_prog_handle_t) :
    (load_rp1_csync_on pio p nh nv pc h).2
      = if to_int32 ((to_uint32 (pio_claim_unused_sm pio).1 : Nat) : Int) < 0
        then (pio_claim_unused_sm pio).2
        else (pio_add_program (pio_claim_unused_sm pio).2 (patched p nh nv pc)).2 := by
  simp only [load_rp1_csync_on, patched]
  split_ifs <;> rfl

/-- The load reports failure exactly when one of the two checks of lines 89 and
92 fires. -/
theorem load_ok_false_iff (p : Nat) (nh nv pc : Bool) (c a : Int) (h : pio_prog_handle_t) :
    (load_rp1_csync p nh nv pc c a h).ok = false
      ↔ (to_int32 ((to_uint32 c : Nat) : Int) < 0 ∨ to_int32 a < 0) := by
  simp only [load_rp1_csync]
  split_ifs with h1 h2
  · simp [h1]
  · simp [h2]
  · simp [h1, h2]

/-- An offset found by the allocator lies inside the instruction memory. -/
theorem find_offset_lt (imem : List (Option Nat)) (len off : Nat)
    (h : find_offset imem len = some off) : off < imem.length := by
  unfold find_offset at h
  exact List.mem_range.mp (List.mem_of_find?_eq_some h)

/-- Claiming a unit does not touch the instruction memory. -/
theorem claim_imem (pio : pio_state) : (pio_claim_unused_sm pio).2.imem = pio.imem := by
  unfold pio_claim_unused_sm
  split <;> rfl

/-- With the pool exhausted the claim returns `-1` and changes nothing. -/
theorem claim_none (pio : pio_state) (h : first_unclaimed pio.claimed = none) :
    pio_claim_unused_sm pio = (-1, pio) := by
  unfold pio_claim_unused_sm
  rw [h]

/-- An add that returns a negative value has changed nothing. -/
theorem add_fail_state (pio : pio_state) (prog : List Nat)
    (him : pio.imem.length < 2147483648)
    (h : to_int32 (pio_add_program pio prog).1 < 0) :
    (pio_add_program pio prog).2 = pio := by
  unfold pio_add_program at h ⊢
  split
  · rename_i off hoff
    exfalso
    have hlt := find_offset_lt _ _ _ hoff
    simp only [hoff] at h
    unfold to_int32 at h
    omega
  · rfl

/-- C12 (as stated, refuted): with four free execution units and a full
instruction memory the load reports failure, and unit 0, claimed at line 88, is
still claimed afterwards: the set of claimed units is not the one before the
call. -/
theorem C12_failed_add_leaves_unit_claimed :
    (load_rp1_csync_on ⟨[false, false, false, false], List.replicate 32 (some 0)⟩
        2 true true false ⟨0, 0, 0, 0⟩).1.ok = false
    ∧ (load_rp1_csync_on ⟨[false, false, false, false], List.replicate 32 (some 0)⟩
        2 true true false ⟨0, 0, 0, 0⟩).2.claimed = [true, false, false, false]
    ∧ (load_rp1_csync_on ⟨[false, false, false, false], List.replicate 32 (some 0)⟩
        2 true true false ⟨0, 0, 0, 0⟩).2
        ≠ ⟨[false, false, false, false], List.replicate 32 (some 0)⟩ := by
  decide

/-- C12 (amended): whenever the load reports failure the instruction memory is
the same as before the call; and when no execution unit is free the load
reports failure and the whole platform state, claimed units included, is the
same as before the call. -/
theorem C12_failure_state (pio : pio_state) (p : Nat) (nh nv pc : Bool)
    (h : pio_prog_handle_t) (him : pio.imem.length < 2147483648) :
    ((load_rp1_csync_on pio p nh nv pc h).1.ok = false →
        (load_rp1_csync_on pio p nh nv pc h).2.imem = pio.imem)
    ∧ (first_unclaimed pio.claimed = none →
        (load_rp1_csync_on pio p nh nv pc h).1.ok = false
        ∧ (load_rp1_csync_on pio p nh nv pc h).2 = pio) := by
  have hneg : to_int32 ((to_uint32 (-1) : Nat) : Int) < 0 := by
    unfold to_int32 to_uint32; omega
  rw [load_on_result, load_on_state, load_ok_false_iff]
  constructor
  · intro hok
    split_ifs with h1
    · exact claim_imem pio
    · have h2 := hok.resolve_left h1
      rw [add_fail_state _ _ (by rw [claim_imem]; exact him) h2]
      exact claim_imem pio
  · intro hnone
    rw [claim_none pio hnone]
    exact ⟨Or.inl hneg, if_pos hneg⟩

/-- Witness for C12 (amended): all four units claimed, instruction memory empty. -/
theorem C12_failure_state_witness :
    ((⟨[true, true, true, true], List.replicate 32 none⟩ : pio_state).imem.length
        < 2147483648
      ∧ first_unclaimed [true, true, true, true] = none)
    ∧ (load_rp1_csync_on ⟨[true, true, true, true], List.replicate 32 none⟩
        2 true true false ⟨0, 0, 0, 0⟩).1.ok = false
    ∧ (load_rp1_csync_on ⟨[true, true, true, true], List.replicate 32 none⟩
        2 true true false ⟨0, 0, 0, 0⟩).2
        = ⟨[true, true, true, true], List.replicate 32 none⟩ :=
  ⟨by decide,
   (C12_failure_state ⟨[true, true, true, true], List.replicate 32 none⟩ 2 true true false
      ⟨0, 0, 0, 0⟩ (by decide)).2 (by decide)⟩

/-! ## Theorems: decoded template and control flow -/

/-- C14: each of the nine template words written by `build_rp1_csync_prog`
decodes, with one mandatory side-set bit, to the instruction of its comment:
0 `pull block side 1`; 1 `out y,32 side 1`; 2 `mov x,y side 1 [3]`;
3 `wait 1 gpio 3 side 1`; 4 `mov x,y side 0 [4]`; 5 `wait 0 gpio 3 side 0`;
6 `jmp pin,7 side 0`; 7 `jmp x--,7 side 0`; 8 `jmp 2 side 1`. -/
theorem C14_template_decodes :
    build_rp1_csync_prog.map decode =
      [ ⟨.pull false true, 1, 0⟩,
        ⟨.out .y 32, 1, 0⟩,
        ⟨.mov .x .no_op .y, 1, 3⟩,
        ⟨.wait 1 .gpio 3, 1, 0⟩,
        ⟨.mov .x .no_op .y, 0, 4⟩,
        ⟨.wait 0 .gpio 3, 0, 0⟩,
        ⟨.jmp .pin 7, 0, 0⟩,
        ⟨.jmp .x_dec 7, 0, 0⟩,
        ⟨.jmp .always 2, 1, 0⟩ ] := by
  decide

/-- The operations of the patched program, for the 32 pins and 8 flag
combinations. -/
theorem patched_op_at : ∀ r < 32, ∀ nh nv pc : Bool, ∀ i < 9,
    (decode ((patched r nh nv pc).getD i 0)).op =
      ([ .pull false true, .out .y 32, .mov .x .no_op .y,
        .wait (if nh then 0 else 1) .gpio r, .mov .x .no_op .y,
        .wait (if nh then 1 else 0) .gpio r,
        .jmp .pin (if nv then 2 else 7), .jmp .x_dec 7, .jmp .always 2 ] :
          List operation).getD i (.irq 0) := by
  decide

/-- The next-pc rule on the patched program with the wrap of its VSYNC
polarity, index by index. -/
theorem next_pc_patched (p : Nat) (nh nv pc : Bool) (s : sm_inputs) (i : Nat)
    (hi : i ≤ 8) :
    next_pc (patched p nh nv pc) 2 (if nv then 7 else 6) s i =
      if i = 6 then (if s.pin then (if nv then 2 else 7) else (if nv then 7 else 2))
      else if i = 7 then (if s.x = 0 then (if nv then 2 else 8) else 7)
      else if i = 8 then 2 else i + 1 := by
  have hop := patched_op_at (p % 32) (Nat.mod_lt _ (by decide)) nh nv pc i (by omega)
  rw [← patched_mod] at hop
  unfold next_pc
  rw [hop]
  interval_cases i <;> cases nv <;> simp [cond_holds]

/-- A successful load at origin 0: wrap target 2, wrap 7 or 6, and the patched
program. -/
theorem load_at_origin_zero (p : Nat) (nh nv pc : Bool) (c : Int) (h : pio_prog_handle_t)
    (hc0 : 0 ≤ c) (hc1 : c < 2147483648) :
    load_rp1_csync p nh nv pc c 0 h
      = ⟨true, ⟨2, if nv then 7 else 6, 0, c.toNat⟩, patched p nh nv pc⟩ := by
  rw [load_rp1_csync_ok p nh nv pc c 0 h hc0 hc1 (by decide) (by decide)]
  cases nv <;> rfl

/-- A property kept by every step is kept by every run. -/
theorem run_invariant (prog : List Nat) (wt w : Nat) (P : Nat → Prop)
    (hstep : ∀ s i, P i → P (next_pc prog wt w s i)) :
    ∀ ss i, P i → P (run prog wt w ss i) := by
  intro ss
  induction ss with
  | nil => intro i hi; exact hi
  | cons s rest ih => intro i hi; exact ih _ (hstep s i hi)

/-- A run over a concatenation is the run over the second part from where the
first part ends. -/
theorem run_append (prog : List Nat) (wt w : Nat) (ss1 ss2 : List sm_inputs) (i : Nat) :
    run prog wt w (ss1 ++ ss2) i = run prog wt w ss2 (run prog wt w ss1 i) := by
  induction ss1 generalizing i with
  | nil => rfl
  | cons s rest ih => exact ih _

/-- A step from an index of the program stays in the program. -/
theorem step_within_program (p : Nat) (nh nv pc : Bool) (s : sm_inputs) (i : Nat)
    (hi : i ≤ 8) :
    next_pc (patched p nh nv pc) 2 (if nv then 7 else 6) s i ≤ 8 := by
  rw [next_pc_patched p nh nv pc s i hi]
  split_ifs <;> omega

/-- A step from an index past the two prologue instructions stays past them. -/
theorem step_past_prologue (p : Nat) (nh nv pc : Bool) (s : sm_inputs) (i : Nat)
    (hi : 2 ≤ i ∧ i ≤ 8) :
    2 ≤ next_pc (patched p nh nv pc) 2 (if nv then 7 else 6) s i
    ∧ next_pc (patched p nh nv pc) 2 (if nv then 7 else 6) s i ≤ 8 := by
  rw [next_pc_patched p nh nv pc s i hi.2]
  split_ifs <;> omega

/-- A step from an index of the loop (2..7 for VSYNC active-low, 2..8 for
active-high) stays in the loop. -/
theorem step_within_loop (p : Nat) (nh nv pc : Bool) (s : sm_inputs) (i : Nat)
    (hi : 2 ≤ i ∧ i ≤ (if nv then 7 else 8)) :
    2 ≤ next_pc (patched p nh nv pc) 2 (if nv then 7 else 6) s i
    ∧ next_pc (patched p nh nv pc) 2 (if nv then 7 else 6) s i ≤ (if nv then 7 else 8) := by
  have h8 : i ≤ 8 := by
    have := hi.2
    split_ifs at this <;> omega
  rw [next_pc_patched p nh nv pc s i h8]
  cases nv
  · simp only [Bool.false_eq_true, if_false] at hi ⊢
    split_ifs <;> omega
  · simp only [if_true] at hi ⊢
    split_ifs <;> omega

/-- Every index of the loop is reached from the wrap target: `k - 2` steps with
VSYNC asserted and X at zero lead from 2 to `k`. -/
theorem reach_in_loop (p : Nat) (nh nv pc : Bool) (k : Nat)
    (hk : 2 ≤ k ∧ k ≤ (if nv then 7 else 8)) :
    run (patched p nh nv pc) 2 (if nv then 7 else 6)
      (List.replicate (k - 2) ⟨!nv, 0, 0, false⟩) 2 = k := by
  have h8 : k ≤ 8 := by
    have := hk.2
    split_ifs at this <;> omega
  have h2 := hk.1
  cases nv
  · have hf : ∀ (s : sm_inputs) (i : Nat), i ≤ 8 →
        next_pc (patched p nh false pc) 2 6 s i
          = if i = 6 then (if s.pin then 7 else 2)
            else if i = 7 then (if s.x = 0 then 8 else 7)
            else if i = 8 then 2 else i + 1 := by
      intro s i hi
      have := next_pc_patched p nh false pc s i hi
      simpa using this
    simp only [Bool.false_eq_true, if_false] at hk ⊢
    interval_cases k <;> simp [run, List.replicate, hf]
  · have hf : ∀ (s : sm_inputs) (i : Nat), i ≤ 8 →
        next_pc (patched p nh true pc) 2 7 s i
          = if i = 6 then (if s.pin then 2 else 7)
            else if i = 7 then (if s.x = 0 then 2 else 7)
            else if i = 8 then 2 else i + 1 := by
      intro s i hi
      have := next_pc_patched p nh true pc s i hi
      simpa using this
    simp only [if_true] at hk ⊢
    have h7 := hk.2
    interval_cases k <;> simp [run, List.replicate, hf]

/-- C13: for both VSYNC polarities, every pin and other flags, on a successful
load at origin 0: after instruction 6 the next instruction is index 7 (the
countdown-extend step) exactly when the VSYNC pin is at its asserted level (high
if active-high, low if active-low) and index 2 (the loop top) exactly when it is
at its idle level. -/
theorem C13_vsync_gate (p : Nat) (nh nv pc : Bool) (c : Int) (h : pio_prog_handle_t)
    (hc0 : 0 ≤ c) (hc1 : c < 2147483648) (s : sm_inputs) :
    loaded_next_pc (load_rp1_csync p nh nv pc c 0 h) s 6 = (if s.pin = !nv then 7 else 2)
    ∧ (loaded_next_pc (load_rp1_csync p nh nv pc c 0 h) s 6 = 7 ↔ s.pin = !nv)
    ∧ (loaded_next_pc (load_rp1_csync p nh nv pc c 0 h) s 6 = 2 ↔ s.pin = nv) := by
  rw [load_at_origin_zero p nh nv pc c h hc0 hc1]
  simp only [loaded_next_pc]
  rw [next_pc_patched p nh nv pc s 6 (by decide)]
  cases nv <;> cases s.pin <;> simp

/-- Witness for C13 at the compiled-in configuration with VSYNC low (asserted). -/
theorem C13_vsync_gate_witness :
    ((0 : Int) ≤ 0 ∧ (0 : Int) < 2147483648)
    ∧ loaded_next_pc (load_rp1_csync 2 true true false 0 0 ⟨0, 0, 0, 0⟩)
        ⟨false, 5, 5, true⟩ 6 = 7 :=
  ⟨by decide,
   ((C13_vsync_gate 2 true true false 0 ⟨0, 0, 0, 0⟩ (by decide) (by decide)
      ⟨false, 5, 5, true⟩).2.1).mpr rfl⟩

/-- C15: for every configuration, on a successful load at origin 0 and for every
sequence of inputs: execution from index 0 never leaves indices 0..8; after
instructions 0 and 1 it is at the wrap target, index 2; and once it has reached
index 2 it stays within 2..8, so instructions 0 and 1 are not executed again. -/
theorem C15_execution_stays_in_program (p : Nat) (nh nv pc : Bool) (c : Int)
    (h : pio_prog_handle_t) (hc0 : 0 ≤ c) (hc1 : c < 2147483648) :
    (∀ ss, loaded_run (load_rp1_csync p nh nv pc c 0 h) ss 0 ≤ 8)
    ∧ (∀ s1 s2, loaded_run (load_rp1_csync p nh nv pc c 0 h) [s1, s2] 0
        = (load_rp1_csync p nh nv pc c 0 h).h.wrap_target)
    ∧ (load_rp1_csync p nh nv pc c 0 h).h.wrap_target = 2
    ∧ (∀ ss1 ss2, loaded_run (load_rp1_csync p nh nv pc c 0 h) ss1 0 = 2 →
        2 ≤ loaded_run (load_rp1_csync p nh nv pc c 0 h) (ss1 ++ ss2) 0
        ∧ loaded_run (load_rp1_csync p nh nv pc c 0 h) (ss1 ++ ss2) 0 ≤ 8) := by
  rw [load_at_origin_zero p nh nv pc c h hc0 hc1]
  refine ⟨?_, ?_, rfl, ?_⟩
  · intro ss
    simp only [loaded_run]
    exact run_invariant _ _ _ (fun i => i ≤ 8)
      (fun s i hi => step_within_program p nh nv pc s i hi) ss 0 (by decide)
  · intro s1 s2
    simp only [loaded_run, run]
    rw [next_pc_patched p nh nv pc s1 0 (by decide)]
    simp only [show (0 : Nat) ≠ 6 by decide, show (0 : Nat) ≠ 7 by decide,
      show (0 : Nat) ≠ 8 by decide, if_false]
    rw [next_pc_patched p nh nv pc s2 (0 + 1) (by decide)]
    simp
  · intro ss1 ss2 h2
    simp only [loaded_run] at h2 ⊢
    rw [run_append, h2]
    exact run_invariant _ _ _ (fun i => 2 ≤ i ∧ i ≤ 8)
      (fun s i hi => step_past_prologue p nh nv pc s i hi) ss2 2 (by decide)

/-- Witness for C15 at the compiled-in configuration: a run of seven steps with
VSYNC idle, which is at index 2 after two steps, stays within 2..8. -/
theorem C15_execution_stays_in_program_witness :
    ((0 : Int) ≤ 0 ∧ (0 : Int) < 2147483648)
    ∧ loaded_run (load_rp1_csync 2 true true false 0 0 ⟨0, 0, 0, 0⟩)
        [⟨true, 0, 0, true⟩, ⟨true, 0, 0, true⟩] 0 = 2
    ∧ 2 ≤ loaded_run (load_rp1_csync 2 true true false 0 0 ⟨0, 0, 0, 0⟩)
        ([⟨true, 0, 0, true⟩, ⟨true, 0, 0, true⟩] ++ List.replicate 5 ⟨true, 0, 0, true⟩) 0
    ∧ loaded_run (load_rp1_csync 2 true true false 0 0 ⟨0, 0, 0, 0⟩)
        ([⟨true, 0, 0, true⟩, ⟨true, 0, 0, true⟩] ++ List.replicate 5 ⟨true, 0, 0, true⟩) 0
        ≤ 8 :=
  ⟨by decide, by decide,
   (C15_execution_stays_in_program 2 true true false 0 ⟨0, 0, 0, 0⟩ (by decide)
      (by decide)).2.2.2 [⟨true, 0, 0, true⟩, ⟨true, 0, 0, true⟩]
      (List.replicate 5 ⟨true, 0, 0, true⟩) (by decide)⟩

/-- C16: on a successful load at origin 0 the wrap target is 2 and the wrap is 7
for VSYNC active-low, 6 for active-high; an index `k` is reached from the wrap
target by some sequence of inputs exactly when `2 ≤ k ≤ 7` (six instructions,
index 8 never executed) for VSYNC active-low and exactly when `2 ≤ k ≤ 8` (seven
instructions) for VSYNC active-high. -/
theorem C16_loop_reachable_set (p : Nat) (nh nv pc : Bool) (c : Int)
    (h : pio_prog_handle_t) (hc0 : 0 ≤ c) (hc1 : c < 2147483648) (k : Nat) :
    (load_rp1_csync p nh nv pc c 0 h).h.wrap_target = 2
    ∧ (load_rp1_csync p nh nv pc c 0 h).h.wrap = (if nv then 7 else 6)
    ∧ ((∃ ss, loaded_run (load_rp1_csync p nh nv pc c 0 h) ss 2 = k)
        ↔ (2 ≤ k ∧ k ≤ (if nv then 7 else 8))) := by
  rw [load_at_origin_zero p nh nv pc c h hc0 hc1]
  refine ⟨rfl, rfl, ?_, ?_⟩
  · rintro ⟨ss, rfl⟩
    simp only [loaded_run]
    exact run_invariant _ _ _ (fun i => 2 ≤ i ∧ i ≤ (if nv then 7 else 8))
      (fun s i hi => step_within_loop p nh nv pc s i hi) ss 2
      ⟨le_refl 2, by cases nv <;> decide⟩
  · intro hk
    exact ⟨_, reach_in_loop p nh nv pc k hk⟩

/-- Witness for C16 at the compiled-in configuration (VSYNC active-low): index 7
is reached from the wrap target and index 8 is not. -/
theorem C16_loop_reachable_set_witness :
    ((0 : Int) ≤ 0 ∧ (0 : Int) < 2147483648)
    ∧ (∃ ss, loaded_run (load_rp1_csync 2 true true false 0 0 ⟨0, 0, 0, 0⟩) ss 2 = 7)
    ∧ ¬ (∃ ss, loaded_run (load_rp1_csync 2 true true false 0 0 ⟨0, 0, 0, 0⟩) ss 2 = 8) :=
  ⟨by decide,
   ((C16_loop_reachable_set 2 true true false 0 ⟨0, 0, 0, 0⟩ (by decide) (by decide)
      7).2.2).mpr (by decide),
   fun hx => absurd
     (((C16_loop_reachable_set 2 true true false 0 ⟨0, 0, 0, 0⟩ (by decide) (by decide)
        8).2.2).mp hx).2 (by decide)⟩

end CSync
